import Mathlib

/-!
Shallow embedding of `src/the_snake.py` (a pygame snake game).

Positions are pixel coordinates: pairs of integers that the game keeps in
multiples of `GRID_SIZE`.  Randomness (the direction chosen by `reset` and
the cell draws of `Apple.randomize_position`) is made explicit: each
random draw is an extra argument of the embedded function.  Rendering,
window creation and the pygame event queue are out of scope; key events
reaching `handle_keys` are modelled by the `Key` type.
-/

namespace TheSnake

/-- Screen width in pixels (`SCREEN_WIDTH = 640`). -/
def SCREEN_WIDTH : Int := 640

/-- Screen height in pixels (`SCREEN_HEIGHT = 480`). -/
def SCREEN_HEIGHT : Int := 480

/-- Side of one grid cell in pixels (`GRID_SIZE = 20`). -/
def GRID_SIZE : Int := 20

/-- Board width in cells (`GRID_WIDTH = SCREEN_WIDTH // GRID_SIZE = 32`). -/
def GRID_WIDTH : Int := SCREEN_WIDTH / GRID_SIZE

/-- Board height in cells (`GRID_HEIGHT = SCREEN_HEIGHT // GRID_SIZE = 24`). -/
def GRID_HEIGHT : Int := SCREEN_HEIGHT / GRID_SIZE

/-- A position on the screen: a pixel coordinate pair (x, y). -/
abbrev Cell := Int × Int

/-- Direction constant `UP = (0, -1)`. -/
def UP : Cell := (0, -1)

/-- Direction constant `DOWN = (0, 1)`. -/
def DOWN : Cell := (0, 1)

/-- Direction constant `LEFT = (-1, 0)`. -/
def LEFT : Cell := (-1, 0)

/-- Direction constant `RIGHT = (1, 0)`. -/
def RIGHT : Cell := (1, 0)

/-- The opposite of a direction: the delta that sums with it to zero. -/
def opposite (d : Cell) : Cell := (-d.1, -d.2)

/-- The default `GameObject` position: the screen center
`(SCREEN_WIDTH // 2, SCREEN_HEIGHT // 2)`, also used by `Snake.reset`. -/
def boardCenter : Cell := (SCREEN_WIDTH / 2, SCREEN_HEIGHT / 2)

/-- The pixel cell produced from one random draw (rx, ry) of
`Apple.randomize_position`: `(rx * GRID_SIZE, ry * GRID_SIZE)`. -/
def cellOf (r : Int × Int) : Cell := (r.1 * GRID_SIZE, r.2 * GRID_SIZE)

/-- The apple: holds a single position (class `Apple`). -/
structure Apple where
  position : Cell
deriving DecidableEq

/-- `Apple.randomize_position`, with the random draw (rx, ry) of the two
`random.randint` calls passed explicitly. -/
def Apple.randomize_position (r : Int × Int) (a : Apple) : Apple :=
  { a with position := cellOf r }

/-- `Apple.__init__`: `GameObject.__init__` sets the position to the screen
center, then `randomize_position` overwrites it with a random cell. -/
def Apple.mk_init (r : Int × Int) : Apple :=
  Apple.randomize_position r { position := boardCenter }

/-- The snake state (class `Snake`): body cells head first, committed
direction, pending direction, target length, and the last erased cell. -/
structure Snake where
  positions : List Cell
  direction : Cell
  next_direction : Option Cell
  length : Nat
  last : Option Cell
deriving DecidableEq

/-- `Snake.__init__`: one body cell at the screen center, moving right,
no pending direction, target length 1, nothing erased yet. -/
def Snake.init : Snake :=
  { positions := [boardCenter]
    direction := RIGHT
    next_direction := none
    length := 1
    last := none }

/-- `Snake.update_direction`: commit the pending direction if there is one. -/
def Snake.update_direction (s : Snake) : Snake :=
  match s.next_direction with
  | some d => { s with direction := d, next_direction := none }
  | none => s

/-- `Snake.get_head_position`: `self.positions[0]`.  The Python indexing
would fail on an empty body; the embedding totalizes it with the board
center as default, and the body is proved nonempty in every reachable
state. -/
def Snake.get_head_position (s : Snake) : Cell :=
  s.positions.headD boardCenter

/-- The new head cell computed at the top of `Snake.move`: head plus the
direction delta times `GRID_SIZE`, each coordinate reduced modulo the
screen size on its own axis (Python `%` on a positive modulus and Lean
`Int.emod` agree). -/
def Snake.newHead (s : Snake) : Cell :=
  ((s.get_head_position.1 + s.direction.1 * GRID_SIZE) % SCREEN_WIDTH,
   (s.get_head_position.2 + s.direction.2 * GRID_SIZE) % SCREEN_HEIGHT)

/-- `Snake.reset`, with the direction drawn by `random.choice` passed
explicitly: target length 1, one body cell at the screen center, the drawn
direction, pending direction cleared (`self.last` is not touched). -/
def Snake.reset (s : Snake) (rd : Cell) : Snake :=
  { s with length := 1
           positions := [boardCenter]
           direction := rd
           next_direction := none }

/-- `Snake.move`, with the random direction a potential `reset` would draw
passed explicitly.  The collision test is `new_position in
self.positions[1:]`; on collision the snake resets and the method returns.
Otherwise `self.last` records `self.positions[-1]`, the new head is
inserted in front, and the tail is popped when the body got longer than
`self.length`. -/
def Snake.move (s : Snake) (rd : Cell) : Snake :=
  let new_position := s.newHead
  if new_position ∈ s.positions.tail then
    s.reset rd
  else
    let lst := s.positions.getLast?
    let ps := new_position :: s.positions
    { s with last := lst
             positions := if ps.length > s.length then ps.dropLast else ps }

/-- A key event reaching `handle_keys`: one of the four arrow keys, or any
other key (which the handler ignores). -/
inductive Key where
  | up
  | down
  | left
  | right
  | other
deriving DecidableEq

/-- The direction an arrow key requests, `none` for other keys. -/
def keyDir : Key → Option Cell
  | Key.up => some UP
  | Key.down => some DOWN
  | Key.left => some LEFT
  | Key.right => some RIGHT
  | Key.other => none

/-- One `KEYDOWN` branch of `handle_keys`: the requested direction becomes
pending unless the committed direction is its opposite (for `K_UP` the
test is `snake.direction != DOWN`, and so on). -/
def handleKey (s : Snake) (k : Key) : Snake :=
  match k with
  | Key.up => if s.direction ≠ DOWN then { s with next_direction := some UP } else s
  | Key.down => if s.direction ≠ UP then { s with next_direction := some DOWN } else s
  | Key.left => if s.direction ≠ RIGHT then { s with next_direction := some LEFT } else s
  | Key.right => if s.direction ≠ LEFT then { s with next_direction := some RIGHT } else s
  | Key.other => s

/-- `handle_keys`: fold the key events of one tick, in arrival order, over
the snake (a `QUIT` event aborts the whole process and is out of scope). -/
def handle_keys (s : Snake) (ks : List Key) : Snake :=
  ks.foldl handleKey s

/-- The directions of one tick's key events that pass the opposite filter
against a fixed committed direction. -/
def acceptedDirs (dir : Cell) (ks : List Key) : List Cell :=
  (ks.filterMap keyDir).filter (fun d => decide (d ≠ opposite dir))

/-- The apple relocation loop of `main`: `randomize_position()` once, then
`while apple.position in snake.positions: randomize_position()`.  The list
holds the successive random draws; the Python loop never runs out of
draws, so the embedding only asserts anything when the list contains a
free draw. -/
def relocateApple (occupied : List Cell) (a : Apple) : List (Int × Int) → Apple
  | [] => a
  | r :: rs =>
    let a2 := Apple.randomize_position r a
    if a2.position ∈ occupied then relocateApple occupied a2 rs else a2

/-- The whole game state owned by `main`: one snake and one apple. -/
structure GameState where
  snake : Snake
  apple : Apple
deriving DecidableEq

/-- One iteration of the main loop, randomness explicit: `handle_keys`,
`update_direction`, `move`, then if the head sits on the apple bump
`snake.length` and relocate the apple away from `snake.positions`
(rendering and the clock have no effect on the state). -/
def tick (ks : List Key) (rd : Cell) (smp : List (Int × Int)) (g : GameState) : GameState :=
  let s0 := handle_keys g.snake ks
  let s1 := s0.update_direction
  let s2 := s1.move rd
  if s2.get_head_position = g.apple.position then
    let s3 := { s2 with length := s2.length + 1 }
    { snake := s3, apple := relocateApple s3.positions g.apple smp }
  else
    { snake := s2, apple := g.apple }

/-- Length invariant: at tick boundaries the body length is the target
length or one below it. -/
def Inv (s : Snake) : Prop :=
  s.positions.length = s.length ∨ s.positions.length + 1 = s.length

/-- Game states reachable from `main`: the initial snake with an apple at
any random draw, closed under ticks. -/
inductive Reachable : GameState → Prop where
  | init (r : Int × Int) : Reachable { snake := Snake.init, apple := Apple.mk_init r }
  | step (ks : List Key) (rd : Cell) (smp : List (Int × Int)) (g : GameState) :
      Reachable g → Reachable (tick ks rd smp g)

/-- A small snake literal used in concrete statements: body cells, a
direction, no pending direction, target length equal to the body length. -/
def snakeAt (ps : List Cell) (d : Cell) : Snake :=
  { positions := ps, direction := d, next_direction := none
    length := ps.length, last := none }

lemma handleKey_positions (s : Snake) (k : Key) : (handleKey s k).positions = s.positions := by
  cases k <;> simp only [handleKey] <;> (try split) <;> rfl

lemma handleKey_direction (s : Snake) (k : Key) : (handleKey s k).direction = s.direction := by
  cases k <;> simp only [handleKey] <;> (try split) <;> rfl

lemma handleKey_length (s : Snake) (k : Key) : (handleKey s k).length = s.length := by
  cases k <;> simp only [handleKey] <;> (try split) <;> rfl

lemma handle_keys_cons (s : Snake) (k : Key) (ks : List Key) :
    handle_keys s (k :: ks) = handle_keys (handleKey s k) ks := rfl

lemma handle_keys_positions (ks : List Key) : ∀ s : Snake,
    (handle_keys s ks).positions = s.positions := by
  induction ks with
  | nil => intro s; rfl
  | cons k ks ih => intro s; rw [handle_keys_cons, ih, handleKey_positions]

lemma handle_keys_direction (ks : List Key) : ∀ s : Snake,
    (handle_keys s ks).direction = s.direction := by
  induction ks with
  | nil => intro s; rfl
  | cons k ks ih => intro s; rw [handle_keys_cons, ih, handleKey_direction]

lemma handle_keys_length (ks : List Key) : ∀ s : Snake,
    (handle_keys s ks).length = s.length := by
  induction ks with
  | nil => intro s; rfl
  | cons k ks ih => intro s; rw [handle_keys_cons, ih, handleKey_length]

lemma update_direction_positions (s : Snake) :
    s.update_direction.positions = s.positions := by
  cases h : s.next_direction <;> simp [Snake.update_direction, h]

lemma update_direction_length (s : Snake) :
    s.update_direction.length = s.length := by
  cases h : s.next_direction <;> simp [Snake.update_direction, h]

lemma move_collision (s : Snake) (rd : Cell) (h : s.newHead ∈ s.positions.tail) :
    s.move rd = s.reset rd := by
  simp [Snake.move, h]

lemma move_no_collision (s : Snake) (rd : Cell) (h : s.newHead ∉ s.positions.tail) :
    s.move rd =
      { s with last := s.positions.getLast?
               positions := if (s.newHead :: s.positions).length > s.length
                            then (s.newHead :: s.positions).dropLast
                            else s.newHead :: s.positions } := by
  simp [Snake.move, h]

lemma move_length_eq (s : Snake) (rd : Cell) (h : Inv s) :
    (s.move rd).positions.length = (s.move rd).length := by
  by_cases hc : s.newHead ∈ s.positions.tail
  · rw [move_collision s rd hc]; simp [Snake.reset]
  · rw [move_no_collision s rd hc]
    simp only [List.length_cons, gt_iff_lt]
    rcases h with h | h
    · rw [if_pos (by omega), List.length_dropLast, List.length_cons]; omega
    · rw [if_neg (by omega), List.length_cons]; omega

lemma move_positions_ne_nil (s : Snake) (rd : Cell) (h : s.positions ≠ []) :
    (s.move rd).positions ≠ [] := by
  by_cases hc : s.newHead ∈ s.positions.tail
  · rw [move_collision s rd hc]; simp [Snake.reset]
  · rw [move_no_collision s rd hc]
    simp only [List.length_cons, gt_iff_lt]
    split
    · have hlen : 0 < s.positions.length := List.length_pos.mpr h
      have : (s.newHead :: s.positions).dropLast.length = s.positions.length := by
        rw [List.length_dropLast, List.length_cons]; omega
      intro hnil
      rw [hnil] at this
      simp at this
      omega
    · simp

lemma tick_strong_inv (ks : List Key) (rd : Cell) (smp : List (Int × Int))
    (g : GameState) (h : Inv g.snake) (hne : g.snake.positions ≠ []) :
    Inv (tick ks rd smp g).snake ∧ (tick ks rd smp g).snake.positions ≠ [] := by
  have h1p := handle_keys_positions ks g.snake
  have h1l := handle_keys_length ks g.snake
  have h2p := update_direction_positions (handle_keys g.snake ks)
  have h2l := update_direction_length (handle_keys g.snake ks)
  have hinv1 : Inv ((handle_keys g.snake ks).update_direction) := by
    unfold Inv at h ⊢; rw [h2p, h2l, h1p, h1l]; exact h
  have hne1 : ((handle_keys g.snake ks).update_direction).positions ≠ [] := by
    rw [h2p, h1p]; exact hne
  have hmv := move_length_eq ((handle_keys g.snake ks).update_direction) rd hinv1
  have hmvne := move_positions_ne_nil ((handle_keys g.snake ks).update_direction) rd hne1
  simp only [tick]
  split
  · constructor
    · unfold Inv; right; simpa using hmv
    · simpa using hmvne
  · exact ⟨Or.inl hmv, hmvne⟩

lemma reachable_strong_inv (g : GameState) (h : Reachable g) :
    Inv g.snake ∧ g.snake.positions ≠ [] := by
  induction h with
  | init r => exact ⟨Or.inl rfl, by simp [Snake.init]⟩
  | step ks rd smp g hg ih => exact tick_strong_inv ks rd smp g ih.1 ih.2

/-- A length-4 snake whose head chases its own tail: the head at (0, 0)
moves right into (20, 0), the cell of the tail that this same move would
vacate. -/
def tailChase : Snake := snakeAt [(0, 0), (0, 20), (20, 20), (20, 0)] RIGHT

/-- A length-5 snake one step from a genuine self-collision: the head at
(20, 20) moves up into (20, 0), a mid-body segment. -/
def collide5 : Snake := snakeAt [(20, 20), (40, 20), (40, 0), (20, 0), (0, 0)] UP

/-- Claim C1: `move` computes the new head as the current head plus the
committed direction's unit delta times the cell size, each coordinate
wrapped modulo the board width/height (in pixels) on its own axis, and on
a non-collision move that cell becomes the front of the body; each of the
four edges wraps to the opposite edge at the same row/column. -/
theorem c1_toroidal_move :
    (∀ (s : Snake) (hd : Cell), s.positions.head? = some hd →
       s.newHead = ((hd.1 + s.direction.1 * GRID_SIZE) % SCREEN_WIDTH,
                    (hd.2 + s.direction.2 * GRID_SIZE) % SCREEN_HEIGHT)) ∧
    (∀ (s : Snake) (rd : Cell), s.positions ≠ [] → s.newHead ∉ s.positions.tail →
       (s.move rd).positions.head? = some s.newHead) ∧
    (∀ y : Int, 0 ≤ y → y < SCREEN_HEIGHT →
       (snakeAt [(SCREEN_WIDTH - GRID_SIZE, y)] RIGHT).newHead = (0, y) ∧
       (snakeAt [(0, y)] LEFT).newHead = (SCREEN_WIDTH - GRID_SIZE, y)) ∧
    (∀ x : Int, 0 ≤ x → x < SCREEN_WIDTH →
       (snakeAt [(x, 0)] UP).newHead = (x, SCREEN_HEIGHT - GRID_SIZE) ∧
       (snakeAt [(x, SCREEN_HEIGHT - GRID_SIZE)] DOWN).newHead = (x, 0)) := by
  refine ⟨?_, ?_, ?_, ?_⟩
  · intro s hd hh
    unfold Snake.newHead Snake.get_head_position
    rw [List.headD_eq_head?, hh]
    rfl
  · intro s rd hne hc
    rw [move_no_collision s rd hc]
    simp only [gt_iff_lt]
    split
    · rw [List.dropLast_cons_of_ne_nil hne]; rfl
    · rfl
  · intro y h0 hy
    rw [SCREEN_HEIGHT] at hy
    constructor <;>
      · simp only [snakeAt, Snake.newHead, Snake.get_head_position, RIGHT, LEFT,
          SCREEN_WIDTH, SCREEN_HEIGHT, GRID_SIZE, List.headD, Prod.mk.injEq]
        constructor <;> omega
  · intro x h0 hx
    rw [SCREEN_WIDTH] at hx
    constructor <;>
      · simp only [snakeAt, Snake.newHead, Snake.get_head_position, UP, DOWN,
          SCREEN_WIDTH, SCREEN_HEIGHT, GRID_SIZE, List.headD, Prod.mk.injEq]
        constructor <;> omega

/-- Witness for C1 at concrete inputs: the head of the initial snake, a
concrete non-collision move, and the four edge wraps at row 240 and
column 320. -/
theorem c1_toroidal_move_witness :
    Snake.init.newHead = ((boardCenter.1 + RIGHT.1 * GRID_SIZE) % SCREEN_WIDTH,
                          (boardCenter.2 + RIGHT.2 * GRID_SIZE) % SCREEN_HEIGHT) ∧
    (Snake.init.move UP).positions.head? = some Snake.init.newHead ∧
    (snakeAt [(SCREEN_WIDTH - GRID_SIZE, 240)] RIGHT).newHead = (0, 240) ∧
    (snakeAt [(0, 240)] LEFT).newHead = (SCREEN_WIDTH - GRID_SIZE, 240) ∧
    (snakeAt [(320, 0)] UP).newHead = (320, SCREEN_HEIGHT - GRID_SIZE) ∧
    (snakeAt [(320, SCREEN_HEIGHT - GRID_SIZE)] DOWN).newHead = (320, 0) := by
  refine ⟨?_, ?_, ?_, ?_, ?_, ?_⟩
  · exact c1_toroidal_move.1 Snake.init boardCenter rfl
  · exact c1_toroidal_move.2.1 Snake.init UP (by decide) (by decide)
  · exact (c1_toroidal_move.2.2.1 240 (by decide) (by decide)).1
  · exact (c1_toroidal_move.2.2.1 240 (by decide) (by decide)).2
  · exact (c1_toroidal_move.2.2.2 320 (by decide) (by decide)).1
  · exact (c1_toroidal_move.2.2.2 320 (by decide) (by decide)).2

/-- Claim C2: after any `move` from a state satisfying the length
invariant, the body length equals the target length (in particular after
every non-collision move), and in every reachable game state — the states
seen outside of `move`, at tick boundaries — the body length is the target
length or one below it. -/
theorem c2_length_invariant :
    (∀ (s : Snake) (rd : Cell), Inv s → s.newHead ∉ s.positions.tail →
       (s.move rd).positions.length = (s.move rd).length) ∧
    (∀ g : GameState, Reachable g →
       g.snake.positions.length = g.snake.length ∨
       g.snake.positions.length + 1 = g.snake.length) := by
  constructor
  · intro s rd h _hc
    exact move_length_eq s rd h
  · intro g hg
    exact (reachable_strong_inv g hg).1

/-- Witness for C2: the initial snake satisfies the hypotheses, its move
restores the length equality, and the initial game state is reachable. -/
theorem c2_length_invariant_witness :
    (Snake.init.move UP).positions.length = (Snake.init.move UP).length ∧
    (Snake.init.positions.length = Snake.init.length ∨
     Snake.init.positions.length + 1 = Snake.init.length) := by
  constructor
  · exact c2_length_invariant.1 Snake.init UP (Or.inl rfl) (by decide)
  · exact c2_length_invariant.2
      { snake := Snake.init, apple := Apple.mk_init (0, 0) } (Reachable.init (0, 0))

/-- Counterexample to C3: for the tail-chasing snake the new head cell
(20, 0) coincides with exactly the tail cell this move would vacate — it
is the last body cell and lies nowhere else in the body — yet `move`
resets the snake (the body collapses to the single center cell), so the
code does count moving into the vacated tail as a self-collision. -/
theorem c3_tail_cell_counterexample :
    tailChase.newHead = (20, 0) ∧
    tailChase.positions.getLast? = some (20, 0) ∧
    tailChase.newHead ∉ tailChase.positions.dropLast ∧
    tailChase.move UP = tailChase.reset UP ∧
    (tailChase.move UP).positions = [boardCenter] := by decide

/-- Claim C3 as amended: `move` triggers the self-collision reset exactly
when the new head lies in `positions[1:]` — the body excluding the current
head, tail included.  A non-collision move inserts the head and maybe
drops the tail; and whenever the body has at least two cells and the new
head equals the current tail cell, the move does reset. -/
theorem c3_collision_condition (s : Snake) (rd : Cell) :
    (s.newHead ∈ s.positions.tail → s.move rd = s.reset rd) ∧
    (s.newHead ∉ s.positions.tail →
       s.move rd =
         { s with last := s.positions.getLast?
                  positions := if (s.newHead :: s.positions).length > s.length
                               then (s.newHead :: s.positions).dropLast
                               else s.newHead :: s.positions }) ∧
    (∀ t : Cell, 2 ≤ s.positions.length → s.positions.getLast? = some t →
       s.newHead = t → s.move rd = s.reset rd) := by
  refine ⟨move_collision s rd, move_no_collision s rd, ?_⟩
  intro t hlen hlast hnew
  apply move_collision s rd
  rw [hnew]
  cases hps : s.positions with
  | nil => rw [hps] at hlen; simp at hlen
  | cons a rest =>
    cases rest with
    | nil => rw [hps] at hlen; simp at hlen
    | cons b bs =>
      rw [hps, List.getLast?_cons_cons] at hlast
      exact List.mem_of_mem_getLast? hlast

/-- Witness for C3's amended statement at the tail-chasing snake: its move
into the tail cell resets, and a free cell move from the initial snake
inserts the head. -/
theorem c3_collision_condition_witness :
    tailChase.move DOWN = tailChase.reset DOWN ∧
    Snake.init.move UP =
      { Snake.init with
          last := Snake.init.positions.getLast?
          positions := if (Snake.init.newHead :: Snake.init.positions).length > Snake.init.length
                       then (Snake.init.newHead :: Snake.init.positions).dropLast
                       else Snake.init.newHead :: Snake.init.positions } := by
  constructor
  · exact (c3_collision_condition tailChase DOWN).2.2 (20, 0) (by decide) (by decide) (by decide)
  · exact (c3_collision_condition Snake.init UP).2.1 (by decide)

/-- Claim C4: a colliding `move` performs exactly the reset — the body is
wholly replaced, with no head insertion and no tail removal — leaving
target length 1, a single body cell at the board center, a (drawn)
cardinal direction, and no pending direction. -/
theorem c4_collision_reset (s : Snake) (rd : Cell)
    (hrd : rd = UP ∨ rd = DOWN ∨ rd = LEFT ∨ rd = RIGHT)
    (hc : s.newHead ∈ s.positions.tail) :
    s.move rd = s.reset rd ∧
    (s.move rd).length = 1 ∧
    (s.move rd).positions = [boardCenter] ∧
    boardCenter = (SCREEN_WIDTH / 2, SCREEN_HEIGHT / 2) ∧
    ((s.move rd).direction = UP ∨ (s.move rd).direction = DOWN ∨
     (s.move rd).direction = LEFT ∨ (s.move rd).direction = RIGHT) ∧
    (s.move rd).next_direction = none := by
  rw [move_collision s rd hc]
  refine ⟨rfl, rfl, rfl, rfl, ?_, rfl⟩
  simpa [Snake.reset] using hrd

/-- Witness for C4: the length-5 snake colliding mid-body resets to one
center cell with target length 1. -/
theorem c4_collision_reset_witness :
    (collide5.move LEFT).length = 1 ∧
    (collide5.move LEFT).positions = [boardCenter] ∧
    (collide5.move LEFT).next_direction = none := by
  have h := c4_collision_reset collide5 LEFT (Or.inr (Or.inr (Or.inl rfl))) (by decide)
  exact ⟨h.2.1, h.2.2.1, h.2.2.2.2.2⟩

lemma eq_opposite_comm (d e : Cell) : d = opposite e ↔ e = opposite d := by
  unfold opposite
  rw [Prod.ext_iff, Prod.ext_iff]
  constructor <;> intro h <;> exact ⟨by omega, by omega⟩

lemma handleKey_none (s : Snake) (k : Key) (h : keyDir k = none) :
    handleKey s k = s := by
  cases k <;> simp_all [keyDir, handleKey]

lemma handleKey_rejected (s : Snake) (k : Key) (d : Cell) (h : keyDir k = some d)
    (hd : d = opposite s.direction) : handleKey s k = s := by
  have hd2 : s.direction = opposite d := (eq_opposite_comm d s.direction).mp hd
  cases k with
  | up =>
    injection h with h'; subst h'
    have hdir : s.direction = DOWN := by rw [hd2]; decide
    simp [handleKey, hdir]
  | down =>
    injection h with h'; subst h'
    have hdir : s.direction = UP := by rw [hd2]; decide
    simp [handleKey, hdir]
  | left =>
    injection h with h'; subst h'
    have hdir : s.direction = RIGHT := by rw [hd2]; decide
    simp [handleKey, hdir]
  | right =>
    injection h with h'; subst h'
    have hdir : s.direction = LEFT := by rw [hd2]; decide
    simp [handleKey, hdir]
  | other => exact absurd h (by simp [keyDir])

lemma handleKey_accepted (s : Snake) (k : Key) (d : Cell) (h : keyDir k = some d)
    (hd : d ≠ opposite s.direction) : handleKey s k = { s with next_direction := some d } := by
  have hd2 : s.direction ≠ opposite d := fun hh => hd ((eq_opposite_comm s.direction d).mp hh)
  cases k with
  | up =>
    injection h with h'; subst h'
    have hne : s.direction ≠ DOWN := fun hh => hd2 (by rw [hh]; decide)
    simp [handleKey, hne]
  | down =>
    injection h with h'; subst h'
    have hne : s.direction ≠ UP := fun hh => hd2 (by rw [hh]; decide)
    simp [handleKey, hne]
  | left =>
    injection h with h'; subst h'
    have hne : s.direction ≠ RIGHT := fun hh => hd2 (by rw [hh]; decide)
    simp [handleKey, hne]
  | right =>
    injection h with h'; subst h'
    have hne : s.direction ≠ LEFT := fun hh => hd2 (by rw [hh]; decide)
    simp [handleKey, hne]
  | other => exact absurd h (by simp [keyDir])

lemma handle_keys_next_characterization (dir : Cell) (ks : List Key) :
    ∀ s : Snake, s.direction = dir →
    (handle_keys s ks).next_direction =
      match (acceptedDirs dir ks).getLast? with
      | some d => some d
      | none => s.next_direction := by
  induction ks using List.reverseRecOn with
  | nil => intro s _; rfl
  | append_singleton l k ih =>
    intro s hdir
    have hsplit : handle_keys s (l ++ [k]) = handleKey (handle_keys s l) k := by
      unfold handle_keys; rw [List.foldl_append]; rfl
    have hdir' : (handle_keys s l).direction = dir := by
      rw [handle_keys_direction]; exact hdir
    have hacc : acceptedDirs dir (l ++ [k]) = acceptedDirs dir l ++ acceptedDirs dir [k] := by
      unfold acceptedDirs; rw [List.filterMap_append, List.filter_append]
    rw [hsplit, hacc]
    cases hv : keyDir k with
    | none =>
      have he : acceptedDirs dir [k] = [] := by
        unfold acceptedDirs; simp [List.filterMap_cons, hv]
      rw [handleKey_none _ k hv, ih s hdir, he, List.append_nil]
    | some d =>
      by_cases hd : d = opposite dir
      · have he : acceptedDirs dir [k] = [] := by
          unfold acceptedDirs; simp [List.filterMap_cons, hv, List.filter_cons, hd]
        rw [handleKey_rejected _ k d hv (by rw [hdir']; exact hd), ih s hdir, he,
          List.append_nil]
      · have he : acceptedDirs dir [k] = [d] := by
          unfold acceptedDirs; simp [List.filterMap_cons, hv, List.filter_cons, hd]
        rw [handleKey_accepted _ k d hv (by rw [hdir']; exact hd), he,
          List.getLast?_concat]

/-- Claim C5: a requested direction becomes pending only when it is not
the opposite of the committed direction — a rejected request changes
nothing at all — and over the key events of one tick the committed
direction never changes, each request is filtered against it (not against
the pending value), and the pending direction ends as the last accepted
request, or stays as it was when no request is accepted. -/
theorem c5_pending_direction_filter (s : Snake) (ks : List Key) :
    (∀ (k : Key) (d : Cell), keyDir k = some d → d = opposite s.direction →
       handleKey s k = s) ∧
    (∀ (k : Key) (d : Cell), keyDir k = some d → d ≠ opposite s.direction →
       handleKey s k = { s with next_direction := some d }) ∧
    (handle_keys s ks).direction = s.direction ∧
    (handle_keys s ks).next_direction =
      match (acceptedDirs s.direction ks).getLast? with
      | some d => some d
      | none => s.next_direction :=
  ⟨fun k d h hd => handleKey_rejected s k d h hd,
   fun k d h hd => handleKey_accepted s k d h hd,
   handle_keys_direction ks s,
   handle_keys_next_characterization s.direction ks s rfl⟩

/-- Witness for C5: from the initial snake (moving right), a left request
is dropped leaving the state untouched, an up request becomes pending, and
over one tick the events up, left, down end with down pending (left
filtered against the committed direction, down overwriting up). -/
theorem c5_pending_direction_filter_witness :
    handleKey Snake.init Key.left = Snake.init ∧
    handleKey Snake.init Key.up = { Snake.init with next_direction := some UP } ∧
    (handle_keys Snake.init [Key.up, Key.left, Key.down]).next_direction = some DOWN := by
  have h := c5_pending_direction_filter Snake.init [Key.up, Key.left, Key.down]
  refine ⟨h.1 Key.left LEFT rfl (by decide), h.2.1 Key.up UP rfl (by decide), ?_⟩
  rw [h.2.2.2]
  decide

lemma randomize_position_cell (r : Int × Int) (a : Apple) :
    (Apple.randomize_position r a).position = cellOf r := rfl

lemma relocateApple_free (occupied : List Cell) (samples : List (Int × Int)) :
    ∀ a : Apple, (∃ r ∈ samples, cellOf r ∉ occupied) →
    (relocateApple occupied a samples).position ∉ occupied := by
  induction samples with
  | nil =>
    intro a h
    obtain ⟨r, hr, _⟩ := h
    simp at hr
  | cons r rs ih =>
    intro a h
    show (if (Apple.randomize_position r a).position ∈ occupied
          then relocateApple occupied (Apple.randomize_position r a) rs
          else Apple.randomize_position r a).position ∉ occupied
    by_cases hin : (Apple.randomize_position r a).position ∈ occupied
    · rw [if_pos hin]
      apply ih
      obtain ⟨r', hr', hfree⟩ := h
      rcases List.mem_cons.mp hr' with heq | hmem
      · subst heq
        exact absurd (by rw [← randomize_position_cell r' a]; exact hin) hfree
      · exact ⟨r', hmem, hfree⟩
    · rw [if_neg hin]; exact hin

lemma move_length_field (s : Snake) (rd : Cell) (h : s.newHead ∉ s.positions.tail) :
    (s.move rd).length = s.length := by
  rw [move_no_collision s rd h]

/-- Claim C6: on a tick whose (non-colliding) move ends with the head on
the apple, the target length after the tick is exactly one more than
before the tick, and — whenever the stream of random draws contains one
landing on a free cell, as the nonterminating Python loop presupposes —
the relocated apple is on no body cell of the snake at that instant. -/
theorem c6_feeding_relocation (ks : List Key) (rd : Cell) (smp : List (Int × Int))
    (g : GameState)
    (hc : ((handle_keys g.snake ks).update_direction).newHead ∉
          ((handle_keys g.snake ks).update_direction).positions.tail)
    (hf : (((handle_keys g.snake ks).update_direction).move rd).get_head_position =
          g.apple.position)
    (hfree : ∃ r ∈ smp,
       cellOf r ∉ (((handle_keys g.snake ks).update_direction).move rd).positions) :
    (tick ks rd smp g).snake.length = g.snake.length + 1 ∧
    (tick ks rd smp g).apple.position ∉ (tick ks rd smp g).snake.positions := by
  have hlen : (((handle_keys g.snake ks).update_direction).move rd).length =
      g.snake.length := by
    rw [move_length_field _ rd hc, update_direction_length, handle_keys_length]
  simp only [tick]
  rw [if_pos hf]
  exact ⟨by simpa using hlen, relocateApple_free _ smp g.apple hfree⟩

/-- The feeding scenario of the spec, one tick before the feed: the apple
sits on the cell the initial snake's head is about to enter. -/
def gFeed : GameState := { snake := Snake.init, apple := { position := (340, 240) } }

/-- Witness for C6: in the concrete feeding scenario the tick bumps the
target length from 1 to 2 and the relocated apple avoids the body. -/
theorem c6_feeding_relocation_witness :
    (tick [] UP [(0, 0)] gFeed).snake.length = gFeed.snake.length + 1 ∧
    (tick [] UP [(0, 0)] gFeed).apple.position ∉ (tick [] UP [(0, 0)] gFeed).snake.positions := by
  have h := c6_feeding_relocation [] UP [(0, 0)] gFeed (by decide) (by decide)
    ⟨(0, 0), by decide, by decide⟩
  exact h

/-- Claim C7: the feed bumps the target length only after the tick's move
has completed, so on a feeding tick from a steady state the move still
removes the tail (the body becomes the new head followed by all but the
old tail, and the reported tail-erase cell is the old tail — non-empty),
the body length stays one below the bumped target, and the growth becomes
visible at the next non-collision move, which brings the body back up to
the target length. -/
theorem c7_growth_deferred_one_tick (ks : List Key) (rd : Cell) (smp : List (Int × Int))
    (g : GameState)
    (hne : g.snake.positions ≠ [])
    (hsteady : g.snake.positions.length = g.snake.length)
    (hc : ((handle_keys g.snake ks).update_direction).newHead ∉
          ((handle_keys g.snake ks).update_direction).positions.tail)
    (hf : (((handle_keys g.snake ks).update_direction).move rd).get_head_position =
          g.apple.position) :
    (tick ks rd smp g).snake.length = g.snake.length + 1 ∧
    (((handle_keys g.snake ks).update_direction).move rd).positions =
      ((handle_keys g.snake ks).update_direction).newHead ::
        ((handle_keys g.snake ks).update_direction).positions.dropLast ∧
    (tick ks rd smp g).snake.positions.length = g.snake.length ∧
    (tick ks rd smp g).snake.positions.length + 1 = (tick ks rd smp g).snake.length ∧
    (tick ks rd smp g).snake.last = g.snake.positions.getLast? ∧
    (tick ks rd smp g).snake.last ≠ none ∧
    (∀ rd2 : Cell,
       ((tick ks rd smp g).snake.move rd2).positions.length =
         ((tick ks rd smp g).snake.move rd2).length) := by
  have h1p : ((handle_keys g.snake ks).update_direction).positions = g.snake.positions := by
    rw [update_direction_positions, handle_keys_positions]
  have h1l : ((handle_keys g.snake ks).update_direction).length = g.snake.length := by
    rw [update_direction_length, handle_keys_length]
  have hmv := move_no_collision ((handle_keys g.snake ks).update_direction) rd hc
  have hcond : (((handle_keys g.snake ks).update_direction).newHead ::
      ((handle_keys g.snake ks).update_direction).positions).length >
      ((handle_keys g.snake ks).update_direction).length := by
    rw [List.length_cons, h1p, h1l, hsteady]; omega
  have hpos : (((handle_keys g.snake ks).update_direction).move rd).positions =
      ((handle_keys g.snake ks).update_direction).newHead ::
        ((handle_keys g.snake ks).update_direction).positions.dropLast := by
    rw [hmv]
    simp only [if_pos hcond]
    rw [List.dropLast_cons_of_ne_nil (by rw [h1p]; exact hne)]
  have hposlen : (((handle_keys g.snake ks).update_direction).move rd).positions.length =
      g.snake.length := by
    rw [hpos, List.length_cons, h1p, List.length_dropLast]
    have : 0 < g.snake.positions.length := List.length_pos.mpr hne
    omega
  have hlast : (((handle_keys g.snake ks).update_direction).move rd).last =
      g.snake.positions.getLast? := by
    rw [hmv]; simp only []; rw [h1p]
  have hlen : (((handle_keys g.snake ks).update_direction).move rd).length =
      g.snake.length := by
    rw [move_length_field _ rd hc, h1l]
  simp only [tick]
  rw [if_pos hf]
  simp only []
  refine ⟨by rw [hlen], hpos, hposlen, by rw [hposlen, hlen], hlast, ?_, ?_⟩
  · rw [hlast]
    cases hps : g.snake.positions with
    | nil => exact absurd hps hne
    | cons a l => simp [List.getLast?]
  · intro rd2
    apply move_length_eq
    unfold Inv
    right
    simp only []
    rw [hposlen, hlen]

/-- Witness for C7: the concrete feeding scenario — after the feeding tick
the target length is 2 but the body still has one cell, the old tail cell
(320, 240) is reported for erasure, and the next move restores the length
equality. -/
theorem c7_growth_deferred_one_tick_witness :
    (tick [] UP [(0, 0)] gFeed).snake.length = gFeed.snake.length + 1 ∧
    (tick [] UP [(0, 0)] gFeed).snake.positions.length = 1 ∧
    (tick [] UP [(0, 0)] gFeed).snake.last = some (320, 240) ∧
    (((tick [] UP [(0, 0)] gFeed).snake.move UP).positions.length =
      ((tick [] UP [(0, 0)] gFeed).snake.move UP).length) := by
  have h := c7_growth_deferred_one_tick [] UP [(0, 0)] gFeed (by decide) (by decide)
    (by decide) (by decide)
  exact ⟨h.1, by rw [h.2.2.1]; rfl, by rw [h.2.2.2.2.1]; rfl, h.2.2.2.2.2.2 UP⟩

/-- A game state about to self-collide with the apple sitting exactly on
the board center — the cell the post-reset head occupies. -/
def gCollCenter : GameState := { snake := collide5, apple := { position := boardCenter } }

/-- A game state about to self-collide with the apple away from the board
center. -/
def gCollAway : GameState := { snake := collide5, apple := { position := (0, 0) } }

/-- Counterexample to C8: on this tick the move does trigger a
self-collision reset (the new head (20, 0) lies in the body behind the
head), yet feeding is not suppressed: the apple sits on the board center,
the post-reset head lands on it, the target length rises to 2 and the
apple is relocated within the very same tick. -/
theorem c8_collision_feeding_counterexample :
    collide5.newHead ∈ collide5.positions.tail ∧
    handle_keys collide5 [] = collide5 ∧
    Snake.update_direction collide5 = collide5 ∧
    collide5.move UP = collide5.reset UP ∧
    (tick [] UP [(0, 0)] gCollCenter).snake.length = 2 ∧
    (tick [] UP [(0, 0)] gCollCenter).apple.position = (0, 0) := by decide

/-- Claim C8 as amended: on a tick whose move triggers the self-collision
reset, feeding is suppressed — the snake ends the tick exactly reset, with
target length 1, and the apple is untouched — unless the apple sits
exactly on the board center, where the post-reset head lands. -/
theorem c8_collision_suppresses_feeding (ks : List Key) (rd : Cell)
    (smp : List (Int × Int)) (g : GameState)
    (hc : ((handle_keys g.snake ks).update_direction).newHead ∈
          ((handle_keys g.snake ks).update_direction).positions.tail)
    (ha : g.apple.position ≠ boardCenter) :
    (tick ks rd smp g).snake = ((handle_keys g.snake ks).update_direction).reset rd ∧
    (tick ks rd smp g).snake.length = 1 ∧
    (tick ks rd smp g).apple = g.apple := by
  have hmv := move_collision ((handle_keys g.snake ks).update_direction) rd hc
  have hhd : (((handle_keys g.snake ks).update_direction).move rd).get_head_position =
      boardCenter := by
    rw [hmv]; rfl
  simp only [tick]
  rw [if_neg (by rw [hhd]; exact fun hh => ha hh.symm)]
  exact ⟨hmv, by rw [hmv]; rfl, rfl⟩

/-- Witness for C8's amended statement: the concrete colliding state with
the apple away from the center ends the tick with a length-1 reset snake
and the apple unmoved. -/
theorem c8_collision_suppresses_feeding_witness :
    (tick [] UP [] gCollAway).snake.length = 1 ∧
    (tick [] UP [] gCollAway).apple = gCollAway.apple := by
  have h := c8_collision_suppresses_feeding [] UP [] gCollAway (by decide) (by decide)
  exact ⟨h.2.1, h.2.2⟩

/-- Counterexample to C9: the random draw (16, 12) is a legal draw of
`randint(0, GRID_WIDTH - 1)` and `randint(0, GRID_HEIGHT - 1)`, and it
puts the just-created apple at (320, 240) — exactly the single body cell
of the just-created snake, so the initial apple position can lie on the
snake's body. -/
theorem c9_initial_apple_counterexample :
    (0 : Int) ≤ 16 ∧ (16 : Int) < GRID_WIDTH ∧
    (0 : Int) ≤ 12 ∧ (12 : Int) < GRID_HEIGHT ∧
    (Apple.mk_init (16, 12)).position ∈ Snake.init.positions := by decide

/-- Claim C9 as amended: at game start the apple is placed at the cell of
the first random draw unconditionally — `Apple.__init__` performs no
check against the snake — so its position is a valid board cell but may
coincide with the snake's body; only the post-feeding relocation loop
avoids body cells. -/
theorem c9_initial_apple_unchecked (r : Int × Int)
    (h1 : 0 ≤ r.1) (h2 : r.1 < GRID_WIDTH) (h3 : 0 ≤ r.2) (h4 : r.2 < GRID_HEIGHT) :
    (Apple.mk_init r).position = cellOf r ∧
    0 ≤ (Apple.mk_init r).position.1 ∧ (Apple.mk_init r).position.1 < SCREEN_WIDTH ∧
    0 ≤ (Apple.mk_init r).position.2 ∧ (Apple.mk_init r).position.2 < SCREEN_HEIGHT := by
  rw [GRID_WIDTH, SCREEN_WIDTH, GRID_SIZE] at h2
  rw [GRID_HEIGHT, SCREEN_HEIGHT, GRID_SIZE] at h4
  refine ⟨rfl, ?_, ?_, ?_, ?_⟩ <;>
    simp only [Apple.mk_init, Apple.randomize_position, cellOf, GRID_SIZE,
      SCREEN_WIDTH, SCREEN_HEIGHT] <;> omega

/-- Witness for C9's amended statement at the draw (3, 4): the apple is
created at (60, 80), inside the board. -/
theorem c9_initial_apple_unchecked_witness :
    (Apple.mk_init (3, 4)).position = cellOf (3, 4) ∧
    0 ≤ (Apple.mk_init (3, 4)).position.1 ∧
    (Apple.mk_init (3, 4)).position.1 < SCREEN_WIDTH ∧
    0 ≤ (Apple.mk_init (3, 4)).position.2 ∧
    (Apple.mk_init (3, 4)).position.2 < SCREEN_HEIGHT :=
  c9_initial_apple_unchecked (3, 4) (by decide) (by decide) (by decide) (by decide)

/-- Claim C10: the body list is never empty — it is nonempty at
construction, preserved nonempty by `update_direction`, `move` and
`reset`, nonempty in every reachable game state, and whenever the body is
nonempty `get_head_position` is exactly its first element, so the
`positions[0]` indexing cannot fail. -/
theorem c10_body_never_empty :
    Snake.init.positions ≠ [] ∧
    (∀ s : Snake, s.positions ≠ [] → s.update_direction.positions ≠ []) ∧
    (∀ (s : Snake) (rd : Cell), s.positions ≠ [] → (s.move rd).positions ≠ []) ∧
    (∀ (s : Snake) (rd : Cell), (s.reset rd).positions ≠ []) ∧
    (∀ g : GameState, Reachable g → g.snake.positions ≠ []) ∧
    (∀ s : Snake, s.positions ≠ [] → s.positions.head? = some s.get_head_position) := by
  refine ⟨by simp [Snake.init], ?_, ?_, ?_, ?_, ?_⟩
  · intro s h; rw [update_direction_positions]; exact h
  · intro s rd h; exact move_positions_ne_nil s rd h
  · intro s rd; simp [Snake.reset]
  · intro g hg; exact (reachable_strong_inv g hg).2
  · intro s h
    cases hps : s.positions with
    | nil => exact absurd hps h
    | cons a l => simp [Snake.get_head_position, hps]

/-- Witness for C10 at concrete states: the initial snake, its moves and a
reachable state all have nonempty bodies with a valid head. -/
theorem c10_body_never_empty_witness :
    (Snake.init.move UP).positions ≠ [] ∧
    Snake.init.update_direction.positions ≠ [] ∧
    (Snake.init.reset DOWN).positions ≠ [] ∧
    Snake.init.positions.head? = some Snake.init.get_head_position := by
  have h := c10_body_never_empty
  exact ⟨h.2.2.1 Snake.init UP h.1, h.2.1 Snake.init h.1, h.2.2.2.1 Snake.init DOWN,
    h.2.2.2.2.2 Snake.init h.1⟩

end TheSnake
